import Mathlib

/-!
# Verification of the riscan-pro coordinate/projection core

Shallow embedding of the riscan-pro library (Rust) in Lean 4.

Conventions of the embedding:

* `f64` values are modelled as real numbers (`ℝ`) in the camera-distortion
  pipeline, which uses the transcendental functions `atan` and `sqrt`, and as
  rationals (`ℚ`) in the purely rational matrix/parsing code paths (every
  finite `f64` value is a rational number).  The tolerance claims of the spec
  (1e-6, 1e-4) absorb the difference between exact and IEEE-754 arithmetic.
* 4×4 homogeneous matrices (`nalgebra::Matrix4` / `Projective3`) are
  `Matrix (Fin 4) (Fin 4) K` for a field `K`.  Application of a projective
  transform to a 3-point follows nalgebra's `Transform × Point`
  multiplication: the homogeneous result is divided by its `w` component
  when that component is nonzero and is left undivided otherwise.
* Fallible Rust functions returning `Result` are modelled with `Except`,
  functions returning `Option` with `Option`.
* Filesystem and XML-file I/O are out of scope; the XML tree is modelled as
  an `Element` value (mirroring the `xmltree::Element` shape used by the
  code) and the external thermal-image reader is abstracted as a parameter.
-/

namespace RiscanPro

/-- A 3-dimensional point over a scalar field, mirroring `nalgebra::Point3`.
The Rust `Point<Crs>` phantom frame tags (`Glcs`, `Prcs`, `Socs`, `Cmcs`)
only restrict which conversion may be called; the numeric content is this
triple. -/
structure Pt3 (K : Type) where
  x : K
  y : K
  z : K
deriving DecidableEq, Repr

/-- 4×4 homogeneous matrix, mirroring `nalgebra::Matrix4<f64>` /
`Projective3<f64>`. -/
abbrev Mat4 (K : Type) := Matrix (Fin 4) (Fin 4) K

variable {K : Type} [Field K] [DecidableEq K]

/-- The homogeneous 4-vector `(x, y, z, 1)` of a 3-point (nalgebra's
`to_homogeneous`). -/
def homo (p : Pt3 K) : Fin 4 → K := ![p.x, p.y, p.z, 1]

/-- Application of a homogeneous 4×4 transform to a 3-point, mirroring
nalgebra's `Transform<_, TProjective> * Point3` multiplication: compute
`q = M · (x, y, z, 1)`; if the homogeneous coordinate `q 3` is nonzero the
affine part is divided by it, otherwise it is returned undivided. -/
def applyT (M : Mat4 K) (p : Pt3 K) : Pt3 K :=
  if M.mulVec (homo p) 3 = 0 then
    ⟨M.mulVec (homo p) 0, M.mulVec (homo p) 1, M.mulVec (homo p) 2⟩
  else
    ⟨M.mulVec (homo p) 0 / M.mulVec (homo p) 3,
     M.mulVec (homo p) 1 / M.mulVec (homo p) 3,
     M.mulVec (homo p) 2 / M.mulVec (homo p) 3⟩

/-- `Matrix4::inverse` / `Projective3::inverse`, modelled as adjugate over
determinant: the exact matrix inverse whenever the determinant is nonzero. -/
def inv4 (M : Mat4 K) : Mat4 K := M.det⁻¹ • M.adjugate

theorem inv4_mul (M : Mat4 K) (h : M.det ≠ 0) : inv4 M * M = 1 := by
  rw [inv4, Matrix.smul_mul, Matrix.adjugate_mul, smul_smul,
    inv_mul_cancel₀ h, one_smul]

theorem mul_inv4 (M : Mat4 K) (h : M.det ≠ 0) : M * inv4 M = 1 := by
  rw [inv4, Matrix.mul_smul, Matrix.mul_adjugate, smul_smul,
    inv_mul_cancel₀ h, one_smul]

/-- `Point<Prcs>::to_glcs`: `pop * p` (src/point.rs). -/
def prcs_to_glcs (pop : Mat4 K) (p : Pt3 K) : Pt3 K :=
  applyT pop p

/-- `Point<Glcs>::to_prcs`: `pop.inverse() * p` (src/point.rs). -/
def glcs_to_prcs (pop : Mat4 K) (p : Pt3 K) : Pt3 K :=
  applyT (inv4 pop) p

/-- `Point<Prcs>::to_socs`: `sop.inverse() * p` (src/point.rs). -/
def prcs_to_socs (sop : Mat4 K) (p : Pt3 K) : Pt3 K :=
  applyT (inv4 sop) p

/-- `Point<Socs>::to_prcs`: `sop * p` (src/point.rs). -/
def socs_to_prcs (sop : Mat4 K) (p : Pt3 K) : Pt3 K :=
  applyT sop p

/-- `Point<Socs>::to_cmcs`: `mount_calibration * cop.inverse() * p`
(src/point.rs). -/
def socs_to_cmcs (cop mount : Mat4 K) (p : Pt3 K) : Pt3 K :=
  applyT (mount * inv4 cop) p

/-- `Point<Cmcs>::to_socs`: `cop * mount_calibration.inverse() * p`
(src/point.rs). -/
def cmcs_to_socs (cop mount : Mat4 K) (p : Pt3 K) : Pt3 K :=
  applyT (cop * inv4 mount) p

theorem applyT_of_w_ne (M : Mat4 K) (p : Pt3 K) (hw : M.mulVec (homo p) 3 ≠ 0) :
    applyT M p =
      ⟨M.mulVec (homo p) 0 / M.mulVec (homo p) 3,
       M.mulVec (homo p) 1 / M.mulVec (homo p) 3,
       M.mulVec (homo p) 2 / M.mulVec (homo p) 3⟩ := by
  rw [applyT, if_neg hw]

/-- Core round-trip lemma: if `N * M = 1` and the forward application's
homogeneous coordinate is nonzero, applying `M` then `N` is the identity. -/
theorem applyT_applyT (M N : Mat4 K) (p : Pt3 K)
    (hNM : N * M = 1)
    (hw : M.mulVec (homo p) 3 ≠ 0) :
    applyT N (applyT M p) = p := by
  obtain ⟨q, hq⟩ : ∃ q, M.mulVec (homo p) = q := ⟨_, rfl⟩
  rw [hq] at hw
  have hM : applyT M p = ⟨q 0 / q 3, q 1 / q 3, q 2 / q 3⟩ := by
    rw [applyT_of_w_ne M p (hq ▸ hw), hq]
  have hvec : homo (⟨q 0 / q 3, q 1 / q 3, q 2 / q 3⟩ : Pt3 K) = (q 3)⁻¹ • q := by
    funext i
    fin_cases i <;>
      simp [homo, Pi.smul_apply, smul_eq_mul, div_eq_inv_mul, inv_mul_cancel₀ hw]
  have hNv : N.mulVec (homo (⟨q 0 / q 3, q 1 / q 3, q 2 / q 3⟩ : Pt3 K))
      = (q 3)⁻¹ • homo p := by
    rw [hvec, Matrix.mulVec_smul, ← hq, Matrix.mulVec_mulVec, hNM, Matrix.one_mulVec]
  have hw2 : N.mulVec (homo (⟨q 0 / q 3, q 1 / q 3, q 2 / q 3⟩ : Pt3 K)) 3 = (q 3)⁻¹ := by
    rw [hNv]; simp [homo]
  rw [hM, applyT, if_neg (by rw [hw2]; exact inv_ne_zero hw), hw2, hNv]
  have hx : ((q 3)⁻¹ • homo p) 0 = (q 3)⁻¹ * p.x := by simp [homo]
  have hy : ((q 3)⁻¹ • homo p) 1 = (q 3)⁻¹ * p.y := by simp [homo]
  have hz : ((q 3)⁻¹ • homo p) 2 = (q 3)⁻¹ * p.z := by simp [homo]
  rw [hx, hy, hz]
  have h3 : (q 3)⁻¹ ≠ 0 := inv_ne_zero hw
  field_simp

/-! ## Camera distortion model (src/camera_calibration.rs, src/camera.rs) -/

/-- `CameraCalibration` (src/camera_calibration.rs): intrinsic OpenCV-style
camera calibration.  The `name` string is irrelevant to the numerics and is
omitted. -/
structure CameraCalibration where
  cx : ℝ
  cy : ℝ
  fx : ℝ
  fy : ℝ
  k1 : ℝ
  k2 : ℝ
  k3 : ℝ
  k4 : ℝ
  p1 : ℝ
  p2 : ℝ
  tan_max_horz : ℝ
  tan_max_vert : ℝ
  tan_min_horz : ℝ
  tan_min_vert : ℝ
  width : ℕ
  height : ℕ

/-- `Point<Cmcs>::is_behind_camera` (src/point.rs): `self.z <= 0.`. -/
def is_behind_camera (p : Pt3 ℝ) : Prop := p.z ≤ 0

/-- `Point<Cmcs>::tan_horz` (src/point.rs): `self.y / self.z`. -/
noncomputable def tan_horz (p : Pt3 ℝ) : ℝ := p.y / p.z

/-- `Point<Cmcs>::tan_vert` (src/point.rs): `self.x / self.z`. -/
noncomputable def tan_vert (p : Pt3 ℝ) : ℝ := p.x / p.z

/-- The angle-extent rejection condition of `cmcs_to_ics`
(src/camera_calibration.rs lines 80–82): the disjunction guarding the early
`return None`. -/
def extent_rejected (c : CameraCalibration) (p : Pt3 ℝ) : Prop :=
  tan_horz p < c.tan_min_horz ∨ tan_horz p > c.tan_max_horz ∨
    tan_vert p < c.tan_min_vert ∨ tan_vert p > c.tan_max_vert

/-- `CameraCalibration::is_valid_pixel` (src/camera_calibration.rs):
`u >= 0. && v >= 0. && u < self.width as f64 && v < self.height as f64`. -/
def is_valid_pixel (c : CameraCalibration) (u v : ℝ) : Prop :=
  u ≥ 0 ∧ v ≥ 0 ∧ u < (c.width : ℝ) ∧ v < (c.height : ℝ)

/-- The distorted pixel coordinates computed by
`CameraCalibration::cmcs_to_ics` (src/camera_calibration.rs lines 86–98):
pinhole projection through `Matrix3::new(fx, 0, cx, 0, fy, cy, 0, 0, 1)`
followed by the radial/tangential distortion expansion.  `powi(2).sqrt()`
is kept literally as `Real.sqrt (_ ^ 2)`. -/
noncomputable def distorted (c : CameraCalibration) (p : Pt3 ℝ) : ℝ × ℝ :=
  let ud0 := c.fx * p.x + 0 * p.y + c.cx * p.z
  let ud1 := 0 * p.x + c.fy * p.y + c.cy * p.z
  let ud2 := 0 * p.x + 0 * p.y + 1 * p.z
  let u := ud0 / ud2
  let v := ud1 / ud2
  let x := (u - c.cx) / c.fx
  let y := (v - c.cy) / c.fy
  let r := Real.sqrt (Real.arctan (Real.sqrt (x ^ 2 + y ^ 2)) ^ 2)
  let r_term := c.k1 * r ^ 2 + c.k2 * r ^ 4 + c.k3 * r ^ 6 + c.k4 * r ^ 8
  (u + x * c.fx * r_term + 2 * c.fx * x * y * c.p1 + c.p2 * c.fx * (r ^ 2 + 2 * x ^ 2),
   v + y * c.fy * r_term + 2 * c.fy * x * y * c.p2 + c.p1 * c.fy * (r ^ 2 + 2 * y ^ 2))

open Classical in
/-- `CameraCalibration::cmcs_to_ics` (src/camera_calibration.rs lines 70–105):
`None` if the point is behind the camera, outside the angle extents, or the
distorted pixel is outside the image; otherwise the distorted pixel. -/
noncomputable def cmcs_to_ics (c : CameraCalibration) (p : Pt3 ℝ) :
    Option (ℝ × ℝ) :=
  if is_behind_camera p then none
  else if extent_rejected c p then none
  else if is_valid_pixel c (distorted c p).1 (distorted c p).2 then
    some (distorted c p)
  else none

/-- `Camera` (src/camera.rs): opencv camera calibration read from a `.cam`
file.  `nx, ny, dx, dy` are not used by `Camera::cmcs_to_ics`. -/
structure Camera where
  fx : ℝ
  fy : ℝ
  cx : ℝ
  cy : ℝ
  k1 : ℝ
  k2 : ℝ
  k3 : ℝ
  k4 : ℝ
  p1 : ℝ
  p2 : ℝ
  nx : ℕ
  ny : ℕ
  dx : ℝ
  dy : ℝ

/-- `Camera::cmcs_to_ics` (src/camera.rs lines 91–112): the same distortion
pipeline as `CameraCalibration::cmcs_to_ics` but with no validity checks:
the distorted coordinates are always returned. -/
noncomputable def Camera.cmcs_to_ics (c : Camera) (p : Pt3 ℝ) : ℝ × ℝ :=
  let ud0 := c.fx * p.x + 0 * p.y + c.cx * p.z
  let ud1 := 0 * p.x + c.fy * p.y + c.cy * p.z
  let ud2 := 0 * p.x + 0 * p.y + 1 * p.z
  let u := ud0 / ud2
  let v := ud1 / ud2
  let x := (u - c.cx) / c.fx
  let y := (v - c.cy) / c.fy
  let r := Real.sqrt (Real.arctan (Real.sqrt (x ^ 2 + y ^ 2)) ^ 2)
  let r_term := c.k1 * r ^ 2 + c.k2 * r ^ 4 + c.k3 * r ^ 6 + c.k4 * r ^ 8
  (u + x * c.fx * r_term + 2 * c.fx * x * y * c.p1 + c.p2 * c.fx * (r ^ 2 + 2 * x ^ 2),
   v + y * c.fy * r_term + 2 * c.fy * x * y * c.p2 + c.p1 * c.fy * (r ^ 2 + 2 * y ^ 2))

/-- A concrete identity-like calibration used to instantiate universally
quantified theorems at a computable input: `fx = fy = 1`, centre at the
origin, no distortion, angle extents `[-1, 1]`, a 1024 × 768 sensor. -/
def calib0 : CameraCalibration :=
  { cx := 0, cy := 0, fx := 1, fy := 1, k1 := 0, k2 := 0, k3 := 0, k4 := 0,
    p1 := 0, p2 := 0, tan_max_horz := 1, tan_max_vert := 1,
    tan_min_horz := -1, tan_min_vert := -1, width := 1024, height := 768 }

theorem distorted_calib0 : distorted calib0 ⟨0, 0, 1⟩ = (0, 0) := by
  simp [distorted, calib0, Real.arctan_zero, Real.sqrt_zero]

theorem calib0_not_behind : ¬ is_behind_camera (⟨0, 0, 1⟩ : Pt3 ℝ) := by
  simp [is_behind_camera]

theorem calib0_not_rejected : ¬ extent_rejected calib0 ⟨0, 0, 1⟩ := by
  simp [extent_rejected, tan_horz, tan_vert, calib0]

/-- C1: after the behind-camera and angle-extent checks pass, `cmcs_to_ics`
returns `some (ud, vd)` exactly when `0 ≤ ud < width` and `0 ≤ vd < height`
(half-open pixel interval), and for a 1024 × 768 calibration the pixel
`(1023.99, 767.99)` is valid while `(1024, 0)` and `(0, 768)` are not. -/
theorem cmcs_to_ics_valid_iff (c : CameraCalibration) (p : Pt3 ℝ)
    (h1 : ¬ is_behind_camera p) (h2 : ¬ extent_rejected c p) :
    (cmcs_to_ics c p = some (distorted c p) ↔
      is_valid_pixel c (distorted c p).1 (distorted c p).2) ∧
    (cmcs_to_ics c p = none ↔
      ¬ is_valid_pixel c (distorted c p).1 (distorted c p).2) ∧
    (∀ c' : CameraCalibration, c'.width = 1024 → c'.height = 768 →
      is_valid_pixel c' 1023.99 767.99 ∧
        ¬ is_valid_pixel c' 1024 0 ∧ ¬ is_valid_pixel c' 0 768) := by
  refine ⟨?_, ?_, ?_⟩
  · rw [cmcs_to_ics, if_neg h1, if_neg h2]
    by_cases hv : is_valid_pixel c (distorted c p).1 (distorted c p).2 <;>
      simp [hv]
  · rw [cmcs_to_ics, if_neg h1, if_neg h2]
    by_cases hv : is_valid_pixel c (distorted c p).1 (distorted c p).2 <;>
      simp [hv]
  · intro c' hw hh
    refine ⟨⟨by norm_num, by norm_num, ?_, ?_⟩, ?_, ?_⟩
    · rw [hw]; norm_num
    · rw [hh]; norm_num
    · intro hvp
      have := hvp.2.2.1
      rw [hw] at this
      norm_num at this
    · intro hvp
      have := hvp.2.2.2
      rw [hh] at this
      norm_num at this

/-- Witness for C1 at the concrete calibration `calib0` and point
`(0, 0, 1)`. -/
theorem cmcs_to_ics_valid_iff_witness :
    (¬ is_behind_camera (⟨0, 0, 1⟩ : Pt3 ℝ)) ∧
    (¬ extent_rejected calib0 ⟨0, 0, 1⟩) ∧
    ((cmcs_to_ics calib0 ⟨0, 0, 1⟩ = some (distorted calib0 ⟨0, 0, 1⟩) ↔
      is_valid_pixel calib0 (distorted calib0 ⟨0, 0, 1⟩).1
        (distorted calib0 ⟨0, 0, 1⟩).2) ∧
    (cmcs_to_ics calib0 ⟨0, 0, 1⟩ = none ↔
      ¬ is_valid_pixel calib0 (distorted calib0 ⟨0, 0, 1⟩).1
        (distorted calib0 ⟨0, 0, 1⟩).2) ∧
    (∀ c' : CameraCalibration, c'.width = 1024 → c'.height = 768 →
      is_valid_pixel c' 1023.99 767.99 ∧
        ¬ is_valid_pixel c' 1024 0 ∧ ¬ is_valid_pixel c' 0 768)) :=
  ⟨calib0_not_behind, calib0_not_rejected,
    cmcs_to_ics_valid_iff calib0 ⟨0, 0, 1⟩ calib0_not_behind calib0_not_rejected⟩

/-- C3: the angle-extent pre-filter is inclusive at its boundary — for
`z > 0`, tangents inside the closed box (in particular exactly at a limit)
are not rejected, while a tangent strictly beyond any limit makes
`cmcs_to_ics` return `None`. -/
theorem extent_boundary_inclusive (c : CameraCalibration) (p : Pt3 ℝ)
    (hz : 0 < p.z) :
    ((c.tan_min_horz ≤ tan_horz p ∧ tan_horz p ≤ c.tan_max_horz ∧
        c.tan_min_vert ≤ tan_vert p ∧ tan_vert p ≤ c.tan_max_vert) →
      ¬ extent_rejected c p) ∧
    (extent_rejected c p → cmcs_to_ics c p = none) := by
  constructor
  · rintro ⟨ha, hb, hc, hd⟩ (h | h | h | h) <;> linarith
  · intro h
    have hb : ¬ is_behind_camera p := not_le.mpr hz
    rw [cmcs_to_ics, if_neg hb, if_pos h]

/-- Witness for C3 at `calib0` and the boundary point `(1, 1, 1)` whose
tangents are exactly at the upper limits. -/
theorem extent_boundary_inclusive_witness :
    (0 < (⟨1, 1, 1⟩ : Pt3 ℝ).z) ∧
    (((calib0.tan_min_horz ≤ tan_horz ⟨1, 1, 1⟩ ∧
        tan_horz ⟨1, 1, 1⟩ ≤ calib0.tan_max_horz ∧
        calib0.tan_min_vert ≤ tan_vert ⟨1, 1, 1⟩ ∧
        tan_vert ⟨1, 1, 1⟩ ≤ calib0.tan_max_vert) →
      ¬ extent_rejected calib0 ⟨1, 1, 1⟩) ∧
    (extent_rejected calib0 ⟨1, 1, 1⟩ → cmcs_to_ics calib0 ⟨1, 1, 1⟩ = none)) :=
  ⟨by norm_num, extent_boundary_inclusive calib0 ⟨1, 1, 1⟩ (by norm_num)⟩

/-- C4: a camera-frame point with `z ≤ 0` is always projected to `None`,
and `is_behind_camera` holds exactly when `z ≤ 0`. -/
theorem behind_camera_invalid (c : CameraCalibration) (p : Pt3 ℝ)
    (h : p.z ≤ 0) :
    cmcs_to_ics c p = none ∧ (is_behind_camera p ↔ p.z ≤ 0) :=
  ⟨by rw [cmcs_to_ics, if_pos (show is_behind_camera p from h)], Iff.rfl⟩

/-- Witness for C4 at `calib0` and the point `(1, 2, -3)`. -/
theorem behind_camera_invalid_witness :
    ((⟨1, 2, -3⟩ : Pt3 ℝ).z ≤ 0) ∧
    (cmcs_to_ics calib0 ⟨1, 2, -3⟩ = none ∧
      (is_behind_camera ⟨1, 2, -3⟩ ↔ (⟨1, 2, -3⟩ : Pt3 ℝ).z ≤ 0)) :=
  ⟨by norm_num, behind_camera_invalid calib0 ⟨1, 2, -3⟩ (by norm_num)⟩

/-! ## Colorizer (src/colorizer.rs) -/

/-- `Colorizer` (src/colorizer.rs): the camera calibration, the image's COP
matrix and the mount calibration matrix.  The backing `irb` thermal image is
an external collaborator and is not part of the pixel computation. -/
structure Colorizer where
  camera_calibration : CameraCalibration
  cop : Mat4 ℝ
  mount_calibration : Mat4 ℝ

/-- `Colorizer::socs_to_cmcs` (src/colorizer.rs):
`*self.mount_calibration * self.image.cop.inverse() * point`. -/
noncomputable def Colorizer.socs_to_cmcs (col : Colorizer) (p : Pt3 ℝ) : Pt3 ℝ :=
  applyT (col.mount_calibration * inv4 col.cop) p

/-- `Colorizer::pixel` (src/colorizer.rs): convert to CMCS then run the
distortion projection. -/
noncomputable def Colorizer.pixel (col : Colorizer) (p : Pt3 ℝ) :
    Option (ℝ × ℝ) :=
  cmcs_to_ics col.camera_calibration (col.socs_to_cmcs p)

theorem cmcs_to_ics_some_valid (c : CameraCalibration) (p : Pt3 ℝ) (u v : ℝ)
    (h : cmcs_to_ics c p = some (u, v)) : is_valid_pixel c u v := by
  rw [cmcs_to_ics] at h
  split_ifs at h with h1 h2 h3
  · have huv : distorted c p = (u, v) := Option.some_injective _ h
    rw [huv] at h3
    exact h3

/-- C10: whenever `Colorizer::pixel` returns `some (u, v)`, the coordinates
satisfy `0 ≤ u < width` and `0 ≤ v < height` of the camera calibration, so
the assertions in `Colorizer::colorize` cannot fail and truncation yields
in-bounds indices. -/
theorem pixel_bounds (col : Colorizer) (p : Pt3 ℝ) (u v : ℝ)
    (h : col.pixel p = some (u, v)) :
    0 ≤ u ∧ 0 ≤ v ∧ u < (col.camera_calibration.width : ℝ) ∧
      v < (col.camera_calibration.height : ℝ) ∧
      ⌊u⌋.toNat < col.camera_calibration.width ∧
      ⌊v⌋.toNat < col.camera_calibration.height := by
  have hv : is_valid_pixel col.camera_calibration u v :=
    cmcs_to_ics_some_valid _ _ _ _ h
  obtain ⟨h1, h2, h3, h4⟩ := hv
  have hu0 : (0 : ℤ) ≤ ⌊u⌋ := Int.floor_nonneg.mpr h1
  have hv0 : (0 : ℤ) ≤ ⌊v⌋ := Int.floor_nonneg.mpr h2
  have hu1 : ⌊u⌋ < (col.camera_calibration.width : ℤ) := by
    rw [Int.floor_lt]; exact_mod_cast h3
  have hv1 : ⌊v⌋ < (col.camera_calibration.height : ℤ) := by
    rw [Int.floor_lt]; exact_mod_cast h4
  refine ⟨h1, h2, h3, h4, ?_, ?_⟩
  · have := Int.toNat_of_nonneg hu0
    omega
  · have := Int.toNat_of_nonneg hv0
    omega

/-- A concrete colorizer (identity COP and mount, `calib0`) for
instantiating C10. -/
noncomputable def col0 : Colorizer :=
  { camera_calibration := calib0, cop := 1, mount_calibration := 1 }

theorem col0_pixel : col0.pixel ⟨0, 0, 1⟩ = some (0, 0) := by
  have hm : col0.mount_calibration * inv4 col0.cop = 1 := by
    rw [show col0.cop = 1 from rfl, show col0.mount_calibration = 1 from rfl,
      inv4, Matrix.det_one, Matrix.adjugate_one]
    simp
  have hs : col0.socs_to_cmcs ⟨0, 0, 1⟩ = ⟨0, 0, 1⟩ := by
    rw [Colorizer.socs_to_cmcs, hm, applyT]
    simp [homo, Matrix.one_mulVec]
  rw [Colorizer.pixel, hs, show col0.camera_calibration = calib0 from rfl,
    cmcs_to_ics, if_neg calib0_not_behind, if_neg calib0_not_rejected,
    distorted_calib0, if_pos]
  refine ⟨le_refl 0, le_refl 0, ?_, ?_⟩ <;> simp [calib0]

/-- Witness for C10 at the concrete colorizer `col0` and point `(0, 0, 1)`. -/
theorem pixel_bounds_witness :
    col0.pixel ⟨0, 0, 1⟩ = some (0, 0) ∧
    (0 ≤ (0 : ℝ) ∧ 0 ≤ (0 : ℝ) ∧ (0 : ℝ) < (col0.camera_calibration.width : ℝ) ∧
      (0 : ℝ) < (col0.camera_calibration.height : ℝ) ∧
      (⌊(0 : ℝ)⌋.toNat < col0.camera_calibration.width ∧
        ⌊(0 : ℝ)⌋.toNat < col0.camera_calibration.height)) := by
  refine ⟨col0_pixel, ?_⟩
  have h := pixel_bounds col0 ⟨0, 0, 1⟩ 0 0 col0_pixel
  exact ⟨h.1, h.2.1, h.2.2.1, h.2.2.2.1, h.2.2.2.2.1, h.2.2.2.2.2⟩

/-! ## Round trips of the frame algebra (C5) -/

theorem inv4_eq_inv (M : Mat4 K) : inv4 M = M⁻¹ := by
  rw [inv4, Matrix.inv_def, Ring.inverse_eq_inv']

theorem inv4_eq_of_mul_eq_one {M N : Mat4 K} (h : M * N = 1) : inv4 M = N := by
  rw [inv4_eq_inv, Matrix.inv_eq_right_inv h]

/-- C5 (amended): for invertible POP/COP/mount transforms, the round trips
`Prcs → Glcs → Prcs` and `Socs → Cmcs → Socs` reproduce the input point
exactly — hence within 1e-6 in every coordinate — for every point whose
homogeneous coordinate under the forward transform is nonzero (always the
case for affine transforms). -/
theorem roundtrip_exact (pop cop mount : Mat4 ℚ) (p q : Pt3 ℚ)
    (hpop : pop.det ≠ 0) (hcop : cop.det ≠ 0) (hmount : mount.det ≠ 0)
    (hw1 : pop.mulVec (homo p) 3 ≠ 0)
    (hw2 : (mount * inv4 cop).mulVec (homo q) 3 ≠ 0) :
    glcs_to_prcs pop (prcs_to_glcs pop p) = p ∧
    cmcs_to_socs cop mount (socs_to_cmcs cop mount q) = q ∧
    |(glcs_to_prcs pop (prcs_to_glcs pop p)).x - p.x| ≤ 1 / 1000000 ∧
    |(glcs_to_prcs pop (prcs_to_glcs pop p)).y - p.y| ≤ 1 / 1000000 ∧
    |(glcs_to_prcs pop (prcs_to_glcs pop p)).z - p.z| ≤ 1 / 1000000 ∧
    |(cmcs_to_socs cop mount (socs_to_cmcs cop mount q)).x - q.x| ≤ 1 / 1000000 ∧
    |(cmcs_to_socs cop mount (socs_to_cmcs cop mount q)).y - q.y| ≤ 1 / 1000000 ∧
    |(cmcs_to_socs cop mount (socs_to_cmcs cop mount q)).z - q.z| ≤ 1 / 1000000 := by
  have h1 : glcs_to_prcs pop (prcs_to_glcs pop p) = p :=
    applyT_applyT pop (inv4 pop) p (inv4_mul pop hpop) hw1
  have hcomp : (cop * inv4 mount) * (mount * inv4 cop) = 1 := by
    rw [mul_assoc, ← mul_assoc (inv4 mount), inv4_mul mount hmount, one_mul,
      mul_inv4 cop hcop]
  have h2 : cmcs_to_socs cop mount (socs_to_cmcs cop mount q) = q :=
    applyT_applyT (mount * inv4 cop) (cop * inv4 mount) q hcomp hw2
  refine ⟨h1, h2, ?_, ?_, ?_, ?_, ?_, ?_⟩ <;>

    first
      | (rw [h1]; simp)
      | (rw [h2]; simp)

/-- A concrete invertible but non-affine homogeneous transform (its last row
is `(1, 0, 0, 1)`), used for C5. -/
def popC : Mat4 ℚ := !![1, 0, 0, 0; 0, 1, 0, 0; 0, 0, 1, 0; 1, 0, 0, 1]

/-- The inverse of `popC`. -/
def popCinv : Mat4 ℚ := !![1, 0, 0, 0; 0, 1, 0, 0; 0, 0, 1, 0; -1, 0, 0, 1]

theorem popC_mul_inv : popC * popCinv = 1 := by
  rw [popC, popCinv]
  ext i j
  fin_cases i <;> fin_cases j <;>
    simp [Matrix.mul_apply, Fin.sum_univ_four, Matrix.one_apply,
      Matrix.vecHead, Matrix.vecTail]

/-- C5 counterexample: for the invertible projective transform `popC` and
the point `(-1, 0, 0)` — whose homogeneous image under `popC` has
`w = 0` — the round trip `Prcs → Glcs → Prcs` moves the point by `1/2` in
`x`, far beyond 1e-6.  The claim as stated (arbitrary invertible transforms
and arbitrary points) is therefore false. -/
theorem roundtrip_counterexample :
    popC.det ≠ 0 ∧
    ¬ (|(glcs_to_prcs popC (prcs_to_glcs popC ⟨-1, 0, 0⟩)).x - (-1 : ℚ)| ≤ 1 / 1000000 ∧
       |(glcs_to_prcs popC (prcs_to_glcs popC ⟨-1, 0, 0⟩)).y - (0 : ℚ)| ≤ 1 / 1000000 ∧
       |(glcs_to_prcs popC (prcs_to_glcs popC ⟨-1, 0, 0⟩)).z - (0 : ℚ)| ≤ 1 / 1000000) := by
  have hdet : popC.det ≠ 0 := by
    rw [popC]
    simp [Matrix.det_succ_row_zero, Fin.sum_univ_succ]
  have hfwd : prcs_to_glcs popC ⟨-1, 0, 0⟩ = ⟨-1, 0, 0⟩ := by
    rw [prcs_to_glcs, applyT]
    norm_num [homo, popC, Matrix.mulVec, Matrix.dotProduct, Fin.sum_univ_four]
  have hinv : inv4 popC = popCinv := inv4_eq_of_mul_eq_one popC_mul_inv
  have hback : glcs_to_prcs popC ⟨-1, 0, 0⟩ = ⟨-1 / 2, 0, 0⟩ := by
    rw [glcs_to_prcs, hinv, applyT]
    norm_num [homo, popCinv, Matrix.mulVec, Matrix.dotProduct, Fin.sum_univ_four]
  refine ⟨hdet, ?_⟩
  rw [hfwd, hback]
  intro hcl
  have h1 := hcl.1
  rw [abs_le] at h1
  have h2 := h1.2
  norm_num at h2

/-- Witness for C5's amended theorem at identity transforms and the point
`(1, 2, 3)`. -/
theorem roundtrip_exact_witness :
    ((1 : Mat4 ℚ).det ≠ 0 ∧ (1 : Mat4 ℚ).mulVec (homo ⟨1, 2, 3⟩) 3 ≠ 0 ∧
      ((1 : Mat4 ℚ) * inv4 1).mulVec (homo ⟨1, 2, 3⟩) 3 ≠ 0) ∧
    glcs_to_prcs 1 (prcs_to_glcs 1 ⟨1, 2, 3⟩) = (⟨1, 2, 3⟩ : Pt3 ℚ) ∧
    cmcs_to_socs 1 1 (socs_to_cmcs 1 1 ⟨1, 2, 3⟩) = (⟨1, 2, 3⟩ : Pt3 ℚ) := by
  have hdet : (1 : Mat4 ℚ).det ≠ 0 := by simp
  have hone : inv4 (1 : Mat4 ℚ) = 1 := inv4_eq_of_mul_eq_one (by simp)
  have hw1 : (1 : Mat4 ℚ).mulVec (homo ⟨1, 2, 3⟩) 3 ≠ 0 := by
    rw [Matrix.one_mulVec]
    simp [homo]
  have hw2 : ((1 : Mat4 ℚ) * inv4 1).mulVec (homo ⟨1, 2, 3⟩) 3 ≠ 0 := by
    rw [hone, mul_one, Matrix.one_mulVec]
    simp [homo]
  have h := roundtrip_exact 1 1 1 ⟨1, 2, 3⟩ ⟨1, 2, 3⟩ hdet hdet hdet hw1 hw2
  exact ⟨⟨hdet, hw1, hw2⟩, h.1, h.2.1⟩

/-! ## String helpers

Rust's `str::split`, `Path::file_stem` and friends are modelled on the
character list of a `String`, because the built-in `String.splitOn` does not
reduce inside the kernel.  Each helper mirrors the Rust operation named in
its doc comment. -/

/-- `str::split(sep)` for a single-character separator, as a list of
segments (always nonempty, like Rust's split iterator). -/
def splitChar (sep : Char) (l : List Char) : List (List Char) :=
  l.foldr
    (fun c acc =>
      if c = sep then [] :: acc
      else
        match acc with
        | [] => [[c]]
        | a :: as => (c :: a) :: as)
    [[]]

/-- The last segment of `str::split(sep)` (Rust `split(sep).last()`):
everything after the final separator, or the whole string if the separator
does not occur. -/
def lastSegment (sep : Char) (l : List Char) : List Char :=
  (l.reverse.takeWhile (fun c => c ≠ sep)).reverse

/-- The first segment of `str::split(sep)` for a multi-character separator
(Rust `split(sep).next()`): the prefix before the first occurrence of
`sep`, or the whole string if `sep` does not occur. -/
def takeBefore (sep : List Char) : List Char → List Char
  | [] => []
  | c :: rest => if sep.isPrefixOf (c :: rest) then [] else c :: takeBefore sep rest

/-- `str::split_whitespace`: split on whitespace and drop empty segments. -/
def splitWhitespace (l : List Char) : List (List Char) :=
  (l.foldr
    (fun c acc =>
      if c.isWhitespace then [] :: acc
      else
        match acc with
        | [] => [[c]]
        | a :: as => (c :: a) :: as)
    [[]]).filter (fun t => ¬ t.isEmpty)

/-- `Path::file_stem` as used on the file names of this project: the part
of the final path component before its last `.` (the whole name if there is
no extension). -/
def fileStem (l : List Char) : List Char :=
  if ('.' ∈ l.drop 1) then ((l.reverse.dropWhile (fun c => c ≠ '.')).drop 1).reverse
  else l

/-- `u64`-style digit-string parser (`str::parse::<usize>` on plain digit
strings). -/
def parseNat (s : String) : Option ℕ :=
  if s.isEmpty then none
  else if s.toList.all Char.isDigit then
    some (s.toList.foldl (fun n c => 10 * n + (c.toNat - 48)) 0)
  else none

/-- `str::parse::<f64>` modelled on plain decimal literals (optional sign,
integer part, optional fractional part), which covers every numeral the
RiSCAN Pro format stores.  Every finite `f64` is a rational, so the result
is a `ℚ`. -/
def parseRat (s : String) : Option ℚ :=
  let neg := s.toList.take 1 = ['-']
  let t := if neg then s.drop 1 else s
  match splitChar '.' t.toList with
  | [w] => (parseNat (String.mk w)).map (fun n => if neg then -(n : ℚ) else (n : ℚ))
  | [w, f] =>
    match parseNat (String.mk w), parseNat (String.mk f) with
    | some n, some m =>
      some ((if neg then (-1 : ℚ) else 1) * ((n : ℚ) + (m : ℚ) / (10 : ℚ) ^ f.length))
    | _, _ => none
  | _ => none

/-- Rust's `Iterator::collect::<Result<Vec<_>, _>>` over a mapped list:
apply the fallible function to every entry, short-circuiting at the first
error. -/
def collectExcept {E A B : Type} (f : A → Except E B) : List A → Except E (List B)
  | [] => Except.ok []
  | a :: as => do
    let b ← f a
    let bs ← collectExcept f as
    Except.ok (b :: bs)

theorem collectExcept_ok_forall {E A B : Type} (f : A → Except E B)
    (l : List A) (r : List B) (h : collectExcept f l = Except.ok r) :
    ∀ x ∈ l, ∃ y, f x = Except.ok y := by
  induction l generalizing r with
  | nil => intro x hx; cases hx
  | cons a as ih =>
    intro x hx
    rw [collectExcept] at h
    cases hfa : f a with
    | error e => rw [hfa] at h; cases h
    | ok b =>
      rw [hfa] at h
      cases hrest : collectExcept f as with
      | error e =>
        rw [hrest] at h
        cases h
      | ok bs =>
        cases hx with
        | head => exact ⟨b, hfa⟩
        | tail _ hmem => exact ih bs hrest x hmem


namespace Old

/-! ## The 2016-era project reader (src/project/, src/error.rs)

The repository snapshot contains two generations of the library.  This
namespace embeds the earlier one: `src/error.rs`, `src/project/mod.rs`,
`src/project/traits.rs`, `src/project/camera_calibration.rs`,
`src/project/image.rs`, `src/project/mount_calibration.rs`,
`src/project/scan.rs` and `src/project/scan_position.rs`. -/

/-- `Error` (src/error.rs).  Payloads of wrapped external errors (`Io`,
`ParseFloat`, `ParseInt`, `XmltreeParse`) are modelled as the offending
string. -/
inductive Error where
  | Io (msg : String)
  | MissingElement (name : String)
  | MissingImageData (scanPosition name : String)
  | MissingInverse (matrix : Mat4 ℝ)
  | ParseFloat (text : String)
  | ParseInt (text : String)
  | ParseMatrix (text : String)
  | ReadInfratec (msg : String)
  | UnsupportedCameraCalibration (name : String)
  | UnsupportedOpenCvVersion (version : ℕ)
  | XmltreeParse (msg : String)

/-- `xmltree::Element`: name, attributes, children and optional text. -/
inductive Element where
  | mk (name : String) (attributes : List (String × String))
      (children : List Element) (text : Option String)

def Element.name : Element → String
  | .mk n _ _ _ => n

def Element.attributes : Element → List (String × String)
  | .mk _ a _ _ => a

def Element.children : Element → List Element
  | .mk _ _ c _ => c

def Element.text : Element → Option String
  | .mk _ _ _ t => t

/-- `xmltree::Element::get_child`: the first child with the given name. -/
def Element.get_child (e : Element) (n : String) : Option Element :=
  e.children.find? (fun c => c.name = n)

/-- `GetDescendant::get_descendant` (src/project/traits.rs): walk the
slash-separated path, failing with `MissingElement` naming the missing
segment. -/
def Element.get_descendant (e : Element) (name : String) : Except Error Element :=
  (splitChar '/' name.toList).foldlM
    (fun el seg =>
      match el.get_child (String.mk seg) with
      | some child => Except.ok child
      | none => Except.error (Error.MissingElement (String.mk seg)))
    e

/-- `GetDescendant::get_children` (src/project/traits.rs). -/
def Element.get_children (e : Element) (name : String) :
    Except Error (List Element) :=
  (e.get_descendant name).map Element.children

/-- `GetDescendant::get_text` (src/project/traits.rs). -/
def Element.get_text (e : Element) (name : String) : Except Error String := do
  let el ← e.get_descendant name
  match el.text with
  | some s => Except.ok s
  | none => Except.error (Error.MissingElement name)

/-- `GetDescendant::get_noderef` (src/project/traits.rs): the last
slash-separated segment of the `noderef` attribute.  (Rust's
`split('/').last()` always yields a segment, so the only failure is a
missing attribute, reported as `MissingElement "<name>.noderef"`.) -/
def Element.get_noderef (e : Element) (name : String) : Except Error String := do
  let el ← e.get_descendant name
  match el.attributes.lookup "noderef" with
  | some s => Except.ok (String.mk (lastSegment '/' s.toList))
  | none => Except.error (Error.MissingElement (name ++ ".noderef"))

/-- `GetDescendant::parse` (src/project/traits.rs) at `f64`. -/
def Element.parseF (e : Element) (name : String) : Except Error ℚ := do
  let s ← e.get_text name
  match parseRat s with
  | some q => Except.ok q
  | none => Except.error (Error.ParseFloat s)

/-- `GetDescendant::parse` (src/project/traits.rs) at `u8` (the camera
calibration `version` field): digits only, at most 255. -/
def Element.parseU8 (e : Element) (name : String) : Except Error ℕ := do
  let s ← e.get_text name
  match parseNat s with
  | some n => if n ≤ 255 then Except.ok n else Except.error (Error.ParseInt s)
  | none => Except.error (Error.ParseInt s)

/-- `GetDescendant::parse` (src/project/traits.rs) at `usize`. -/
def Element.parseUsize (e : Element) (name : String) : Except Error ℕ := do
  let s ← e.get_text name
  match parseNat s with
  | some n => Except.ok n
  | none => Except.error (Error.ParseInt s)

/-- Modelled from the spec: `utils::matrix4_from_str`, called by
`GetDescendant::get_matrix4` (src/project/traits.rs) but itself not part of
the source snapshot.  Per spec §6, the matrix text is "exactly 16
whitespace/newline-separated floats, read in row-major order"; any other
token count is a parse error (`ParseMatrix` carrying the offending string),
and a non-numeric token is a float parse error. -/
noncomputable def matrix4_from_str (s : String) : Except Error (Mat4 ℝ) := do
  let entries ← (splitWhitespace s.toList).mapM
    (fun t =>
      match parseRat (String.mk t) with
      | some q => Except.ok q
      | none => Except.error (Error.ParseFloat (String.mk t)))
  if h : entries.length = 16 then
    Except.ok (Matrix.of fun i j => ((entries.get ⟨4 * i.val + j.val, by omega⟩ : ℚ) : ℝ))
  else
    Except.error (Error.ParseMatrix s)

/-- `GetDescendant::get_matrix4` (src/project/traits.rs). -/
noncomputable def Element.get_matrix4 (e : Element) (name : String) :
    Except Error (Mat4 ℝ) := do
  let s ← e.get_text name
  matrix4_from_str s

/-- `GetDescendant::map_children` (src/project/traits.rs): map a fallible
function over the children of the named descendant, short-circuiting at the
first error. -/
def Element.map_children {B : Type} (e : Element) (name : String)
    (function : Element → Except Error B) : Except Error (List B) := do
  let children ← e.get_children name
  collectExcept function children

/-- `camera_calibration::opencv::AngleExtents`
(src/project/camera_calibration.rs). -/
structure AngleExtents where
  tan_max_horz : ℚ
  tan_max_vert : ℚ
  tan_min_horz : ℚ
  tan_min_vert : ℚ
deriving DecidableEq

/-- `camera_calibration::opencv::Internal`
(src/project/camera_calibration.rs). -/
structure Internal where
  cx : ℚ
  cy : ℚ
  fx : ℚ
  fy : ℚ
  k1 : ℚ
  k2 : ℚ
  k3 : ℚ
  k4 : ℚ
  p1 : ℚ
  p2 : ℚ
deriving DecidableEq

/-- `camera_calibration::opencv::Intrinsic`
(src/project/camera_calibration.rs). -/
structure Intrinsic where
  dx : ℚ
  dy : ℚ
  nx : ℕ
  ny : ℕ
deriving DecidableEq

/-- `CameraCalibration` (src/project/camera_calibration.rs): the single
`OpenCv` variant of the open camera-model enum. -/
inductive CameraCalibration where
  | OpenCv (name cameramodel : String) (version : ℕ)
      (angle_extents : AngleExtents) (internal_opencv : Internal)
      (intrinsic_opencv : Intrinsic)
deriving DecidableEq

def CameraCalibration.version : CameraCalibration → ℕ
  | .OpenCv _ _ v _ _ _ => v

def CameraCalibration.internal_opencv : CameraCalibration → Internal
  | .OpenCv _ _ _ _ i _ => i

/-- `CameraCalibration::from_element`
(src/project/camera_calibration.rs lines 19–54, identical to
src/project/mod.rs lines 174–211): dispatch on the element name; only
`camcalib_opencv` is accepted, any other name is an
`UnsupportedCameraCalibration` error.  The `version` is parsed and stored
without being checked here. -/
def CameraCalibration.from_element (element : Element) :
    Except Error CameraCalibration :=
  if element.name = "camcalib_opencv" then do
    let name ← element.get_text "name"
    let cameramodel ← element.get_text "cameramodel"
    let version ← element.parseU8 "version"
    let tan_max_horz ← element.parseF "angle_extents/tan_max_horz"
    let tan_max_vert ← element.parseF "angle_extents/tan_max_vert"
    let tan_min_horz ← element.parseF "angle_extents/tan_min_horz"
    let tan_min_vert ← element.parseF "angle_extents/tan_min_vert"
    let cx ← element.parseF "internal_opencv/cx"
    let cy ← element.parseF "internal_opencv/cy"
    let fx ← element.parseF "internal_opencv/fx"
    let fy ← element.parseF "internal_opencv/fy"
    let k1 ← element.parseF "internal_opencv/k1"
    let k2 ← element.parseF "internal_opencv/k2"
    let k3 ← element.parseF "internal_opencv/k3"
    let k4 ← element.parseF "internal_opencv/k4"
    let p1 ← element.parseF "internal_opencv/p1"
    let p2 ← element.parseF "internal_opencv/p2"
    let dx ← element.parseF "intrinsic_opencv/dx"
    let dy ← element.parseF "intrinsic_opencv/dy"
    let nx ← element.parseUsize "intrinsic_opencv/nx"
    let ny ← element.parseUsize "intrinsic_opencv/ny"
    Except.ok (CameraCalibration.OpenCv name cameramodel version
      ⟨tan_max_horz, tan_max_vert, tan_min_horz, tan_min_vert⟩
      ⟨cx, cy, fx, fy, k1, k2, k3, k4, p1, p2⟩
      ⟨dx, dy, nx, ny⟩)
  else
    Except.error (Error.UnsupportedCameraCalibration element.name)

def CameraCalibration.name : CameraCalibration → String
  | .OpenCv n _ _ _ _ _ => n

/-- `MountCalibration` (src/project/mount_calibration.rs). -/
structure MountCalibration where
  matrix : Mat4 ℝ
  name : String

/-- `MountCalibration::from_element` (src/project/mod.rs lines 213–218). -/
noncomputable def MountCalibration.from_element (element : Element) :
    Except Error MountCalibration := do
  let name ← element.get_text "name"
  let matrix ← element.get_matrix4 "matrix"
  Except.ok ⟨matrix, name⟩

/-- `Scan` (src/project/scan.rs). -/
structure Scan where
  name : String

/-- `Scan::from_element` (src/project/mod.rs lines 220–224). -/
def Scan.from_element (element : Element) : Except Error Scan := do
  let name ← element.get_text "name"
  Except.ok ⟨name⟩

/-- `Image` (src/project/image.rs).  The optional image data is external
(read from the filesystem by `read_image_data`); it is abstracted as
`Option Unit`. -/
structure Image where
  cop : Mat4 ℝ
  camera_calibration : CameraCalibration
  image_data : Option Unit
  mount_calibration : MountCalibration
  name : String
  scan_position_name : String
  sop : Mat4 ℝ

open Classical in
/-- `Matrix4::inverse` of the era's nalgebra (the `Inverse` trait):
`Some` of the inverse for an invertible matrix, `None` otherwise. -/
noncomputable def tryInverse (M : Mat4 ℝ) : Option (Mat4 ℝ) :=
  if M.det = 0 then none else some (inv4 M)

open Classical in
/-- `Image::project` (src/project/image.rs lines 198–226): invert COP and
SOP (each failure a `MissingInverse` error carrying the offending matrix),
transform the PRCS point to CMCS, and run the version-2 OpenCV distortion;
any other version is an `UnsupportedOpenCvVersion` error.  The source's
`assert!(cmcs.w == 1.)` panic is modelled by the outer `Option`: `none`
means the assertion fails. -/
noncomputable def Image.project (img : Image) (point : Pt3 ℝ) :
    Option (Except Error (ℝ × ℝ)) :=
  match tryInverse img.cop with
  | none => some (Except.error (Error.MissingInverse img.cop))
  | some copInv =>
    match tryInverse img.sop with
    | none => some (Except.error (Error.MissingInverse img.sop))
    | some sopInv =>
      let cmcs := (img.mount_calibration.matrix * copInv * sopInv).mulVec
        ![point.x, point.y, point.z, 1]
      if cmcs 3 = 1 then
        match img.camera_calibration with
        | .OpenCv _ _ version _ cam _ =>
          if version = 2 then
            let u0 := (cam.fx : ℝ) * cmcs 0 + 0 * cmcs 1 + (cam.cx : ℝ) * cmcs 2
            let u1 := 0 * cmcs 0 + (cam.fy : ℝ) * cmcs 1 + (cam.cy : ℝ) * cmcs 2
            let u2 := 0 * cmcs 0 + 0 * cmcs 1 + 1 * cmcs 2
            let u := u0 / u2
            let v := u1 / u2
            let x := (u - (cam.cx : ℝ)) / (cam.fx : ℝ)
            let y := (v - (cam.cy : ℝ)) / (cam.fy : ℝ)
            let r := Real.sqrt (Real.arctan (Real.sqrt (x * x + y * y)) ^ 2)
            let expansion := (cam.k1 : ℝ) * r ^ 2 + (cam.k2 : ℝ) * r ^ 4 +
              (cam.k3 : ℝ) * r ^ 6 + (cam.k4 : ℝ) * r ^ 8
            let ud := u + x * (cam.fx : ℝ) * expansion +
              2 * (cam.fx : ℝ) * x * y * (cam.p1 : ℝ) +
              (cam.p2 : ℝ) * (cam.fx : ℝ) * (r ^ 2 + 2 * x ^ 2)
            let vd := v + y * (cam.fy : ℝ) * expansion +
              2 * (cam.fy : ℝ) * x * y * (cam.p2 : ℝ) +
              (cam.p1 : ℝ) * (cam.fy : ℝ) * (r ^ 2 + 2 * y ^ 2)
            some (Except.ok (ud, vd))
          else
            some (Except.error (Error.UnsupportedOpenCvVersion version))
      else
        none

/-- `ScanPosition` (src/project/scan_position.rs); the `HashMap`s are
modelled as association lists keyed by name. -/
structure ScanPosition where
  name : String
  images : List (String × Image)
  scans : List (String × Scan)

/-- `Image::from_element` (src/project/mod.rs lines 149–172).  The
filesystem lookup `image::read_image_data` is an external collaborator,
passed in as `readData` (mapping the image file path to its optional
data). -/
noncomputable def Image.from_element
    (readData : String → Except Error (Option Unit)) (element : Element)
    (project_path : String) (mount_calibration : MountCalibration)
    (camera_calibration : CameraCalibration) (scan_position_name : String)
    (sop : Mat4 ℝ) : Except Error Image := do
  let file ← element.get_text "file"
  let path := project_path ++ "/SCANS/" ++ scan_position_name ++
    "/SCANPOSIMAGES" ++ "/" ++ file
  let image_data ← readData path
  let name ← element.get_text "name"
  let cop ← element.get_matrix4 "cop/matrix"
  Except.ok ⟨cop, camera_calibration, image_data, mount_calibration, name,
    scan_position_name, sop⟩

/-- The body of the per-image closure inside `ScanPosition::from_element`
(src/project/mod.rs lines 126–144): resolve the image's `mountcalib_ref`
and `camcalib_ref` noderefs against the already-built calibration maps —
failing with `MissingElement "mount_calibration[name=…]"` /
`"camera_calibration[name=…]"` on a dangling reference — then build the
image. -/
noncomputable def imagePair (readData : String → Except Error (Option Unit))
    (project_path : String)
    (mount_calibrations : List (String × MountCalibration))
    (camera_calibrations : List (String × CameraCalibration))
    (name : String) (sop : Mat4 ℝ) (child : Element) :
    Except Error (String × Image) := do
  let mountName ← child.get_noderef "mountcalib_ref"
  let mount_calibration ←
    (match mount_calibrations.lookup mountName with
      | some m => Except.ok m
      | none => Except.error (Error.MissingElement
          ("mount_calibration[name=" ++ mountName ++ "]")) :
      Except Error MountCalibration)
  let camName ← child.get_noderef "camcalib_ref"
  let camera_calibration ←
    (match camera_calibrations.lookup camName with
      | some c => Except.ok c
      | none => Except.error (Error.MissingElement
          ("camera_calibration[name=" ++ camName ++ "]")) :
      Except Error CameraCalibration)
  let image ← Image.from_element readData child project_path
    mount_calibration camera_calibration name sop
  Except.ok (image.name, image)

/-- `ScanPosition::from_element` (src/project/mod.rs lines 112–147): name,
SOP matrix and scans, then the images (see `imagePair`). -/
noncomputable def ScanPosition.from_element
    (readData : String → Except Error (Option Unit)) (element : Element)
    (project_path : String)
    (mount_calibrations : List (String × MountCalibration))
    (camera_calibrations : List (String × CameraCalibration)) :
    Except Error ScanPosition := do
  let name ← element.get_text "name"
  let sop ← element.get_matrix4 "sop/matrix"
  let scans ← element.map_children "singlescans" (fun child => do
    let scan ← Scan.from_element child
    Except.ok (scan.name, scan))
  let images ← element.map_children "scanposimages"
    (imagePair readData project_path mount_calibrations camera_calibrations
      name sop)
  Except.ok ⟨name, images, scans⟩

/-- `Project` (src/project/mod.rs). -/
structure Project where
  scan_positions : List (String × ScanPosition)

/-- The per-child closure of the mount-calibration pass of
`Project::from_path` (src/project/mod.rs lines 51–54). -/
noncomputable def mountPair (child : Element) :
    Except Error (String × MountCalibration) := do
  let mount_calibration ← MountCalibration.from_element child
  Except.ok (mount_calibration.name, mount_calibration)

/-- The per-child closure of the camera-calibration pass of
`Project::from_path` (src/project/mod.rs lines 55–58). -/
def camPair (child : Element) :
    Except Error (String × CameraCalibration) := do
  let camera_calibration ← CameraCalibration.from_element child
  Except.ok (camera_calibration.name, camera_calibration)

/-- The per-child closure of the scan-position pass of
`Project::from_path` (src/project/mod.rs lines 59–65). -/
noncomputable def spPair (readData : String → Except Error (Option Unit))
    (project_path : String)
    (mount_calibrations : List (String × MountCalibration))
    (camera_calibrations : List (String × CameraCalibration))
    (child : Element) : Except Error (String × ScanPosition) := do
  let scan_position ← ScanPosition.from_element readData child project_path
    mount_calibrations camera_calibrations
  Except.ok (scan_position.name, scan_position)

/-- The pure core of `Project::from_path` (src/project/mod.rs lines 43–67),
taking the already-parsed XML root instead of reading a file: build the
mount-calibration map, the camera-calibration map, then the scan positions
(which resolve their images' calibration references). -/
noncomputable def Project.from_element
    (readData : String → Except Error (Option Unit)) (xml : Element)
    (project_path : String) : Except Error Project := do
  let mount_calibrations ← xml.map_children "calibrations/mountcalibs" mountPair
  let camera_calibrations ← xml.map_children "calibrations/camcalibs" camPair
  let scan_positions ← xml.map_children "scanpositions"
    (spPair readData project_path mount_calibrations camera_calibrations)
  Except.ok ⟨scan_positions⟩

end Old

/-! ## The current-era matrix loader (src/utils.rs) -/

/-- The error constructors of the current-era `Error` enum used by
`utils::projective_from_str` (src/utils.rs): `ParseFloat` (wrapped
`std::num::ParseFloatError`), `ParseMatrix4` carrying the offending text and
`Inverse` carrying the non-invertible matrix. -/
inductive UtilsError where
  | ParseFloat (text : String)
  | ParseMatrix4 (text : String)
  | Inverse (matrix : Mat4 ℚ)

/-- The token-parsing stage of `utils::projective_from_str` (src/utils.rs):
split on whitespace and parse every token as `f64`, short-circuiting at the
first failure. -/
def parseTokens (s : String) : Except UtilsError (List ℚ) :=
  collectExcept
    (fun t =>
      match parseRat (String.mk t) with
      | some q => Except.ok q
      | none => Except.error (UtilsError.ParseFloat (String.mk t)))
    (splitWhitespace s.toList)

/-- `Matrix4::from_iterator(v).transpose()` (src/utils.rs): nalgebra's
`from_iterator` fills column-major — entry `(i, j)` is `v[i + 4j]` — and the
transpose therefore has entry `(i, j) = v[4i + j]`, i.e. the row-major
reading of the token list.  Indices are only in range after the length-16
check of `projective_from_str`; out-of-range defaults to 0. -/
def matrixOfTokens (v : List ℚ) : Mat4 ℚ :=
  (Matrix.of fun i j : Fin 4 => v.getD (i.val + 4 * j.val) 0).transpose

/-- `utils::projective_from_str` (src/utils.rs): parse 16
whitespace-separated floats (any other count is a `ParseMatrix4` error
carrying the text), build the matrix, and convert to `Projective3` — the
conversion requires invertibility, and a singular matrix is an `Inverse`
error carrying the matrix (`try_convert(matrix).ok_or(Error::Inverse(matrix))`). -/
def projective_from_str (s : String) : Except UtilsError (Mat4 ℚ) := do
  let v ← parseTokens s
  if v.length = 16 then
    let matrix := matrixOfTokens v
    if matrix.det ≠ 0 then Except.ok matrix
    else Except.error (UtilsError.Inverse matrix)
  else
    Except.error (UtilsError.ParseMatrix4 s)

/-- C6: a conversion that must invert a matrix never silently substitutes
the identity.  In the 2016-era `Image::project`, a non-invertible COP or
SOP matrix is a typed `MissingInverse` error carrying that matrix; in the
current era, `Projective3` values are created only by
`projective_from_str`, which rejects a non-invertible matrix with a typed
`Inverse` error carrying it (so `to_prcs`/`to_socs`/`to_cmcs`/`to_socs`
never receive one). -/
theorem noninvertible_typed_error :
    (∀ (img : Old.Image) (p : Pt3 ℝ), img.cop.det = 0 →
      img.project p = some (Except.error (Old.Error.MissingInverse img.cop))) ∧
    (∀ (img : Old.Image) (p : Pt3 ℝ), img.cop.det ≠ 0 → img.sop.det = 0 →
      img.project p = some (Except.error (Old.Error.MissingInverse img.sop))) ∧
    (∀ (s : String) (M : Mat4 ℚ), projective_from_str s = Except.ok M →
      M.det ≠ 0) ∧
    (∀ (s : String) (v : List ℚ), parseTokens s = Except.ok v →
      v.length = 16 → (matrixOfTokens v).det = 0 →
      projective_from_str s =
        Except.error (UtilsError.Inverse (matrixOfTokens v))) := by
  refine ⟨?_, ?_, ?_, ?_⟩
  · intro img p hc
    rw [Old.Image.project, Old.tryInverse, if_pos hc]
  · intro img p hc hs
    rw [Old.Image.project, Old.tryInverse, if_neg hc]
    rw [show Old.tryInverse img.sop = none from by
      rw [Old.tryInverse, if_pos hs]]
  · intro s M h
    rw [projective_from_str] at h
    cases htok : parseTokens s with
    | error e => rw [htok] at h; cases h
    | ok v =>
      rw [htok] at h
      simp only [bind, Except.bind] at h
      by_cases hlen : v.length = 16
      · rw [if_pos hlen] at h
        by_cases hdet : (matrixOfTokens v).det ≠ 0
        · rw [if_pos hdet] at h
          cases h
          exact hdet
        · rw [if_neg hdet] at h
          cases h
      · rw [if_neg hlen] at h
        cases h
  · intro s v htok hlen hdet
    rw [projective_from_str, htok]
    simp only [bind, Except.bind]
    rw [if_pos hlen, if_neg (by simpa using hdet)]

/-- A singular 4×4 matrix text: `diag(1, 1, 1, 0)`. -/
def singularText : String := "1 0 0 0 0 1 0 0 0 0 1 0 0 0 0 0"

/-- The tokens of `singularText`. -/
def singularTokens : List ℚ := [1, 0, 0, 0, 0, 1, 0, 0, 0, 0, 1, 0, 0, 0, 0, 0]

/-- A concrete image with a singular (zero) COP matrix. -/
noncomputable def imgSingular : Old.Image :=
  { cop := 0,
    camera_calibration := Old.CameraCalibration.OpenCv "c" "m" 2
      ⟨1, 1, -1, -1⟩ ⟨0, 0, 1, 1, 0, 0, 0, 0, 0, 0⟩ ⟨1, 1, 1024, 768⟩,
    image_data := none,
    mount_calibration := ⟨1, "mount"⟩,
    name := "img",
    scan_position_name := "sp",
    sop := 1 }

theorem matrixOfTokens_singular :
    (matrixOfTokens singularTokens).det = 0 := by
  have h : matrixOfTokens singularTokens =
      Matrix.diagonal ![1, 1, 1, 0] := by
    ext i j
    fin_cases i <;> fin_cases j <;>
      simp [matrixOfTokens, singularTokens, Matrix.transpose_apply,
        Matrix.diagonal, Matrix.of_apply] <;> rfl
  rw [h, Matrix.det_diagonal]
  simp [Fin.prod_univ_four]

/-- Witness for C6: the zero COP matrix is reported as `MissingInverse`,
and the singular matrix text is rejected by the loader with a typed
`Inverse` error. -/
theorem noninvertible_typed_error_witness :
    (imgSingular.cop.det = 0 ∧
      imgSingular.project ⟨0, 0, 1⟩ =
        some (Except.error (Old.Error.MissingInverse imgSingular.cop))) ∧
    (parseTokens singularText = Except.ok singularTokens ∧
      singularTokens.length = 16 ∧ (matrixOfTokens singularTokens).det = 0 ∧
      projective_from_str singularText =
        Except.error (UtilsError.Inverse (matrixOfTokens singularTokens))) := by
  have hdet : imgSingular.cop.det = 0 := by
    rw [show imgSingular.cop = 0 from rfl]
    exact Matrix.det_zero ⟨0⟩
  have htok : parseTokens singularText = Except.ok singularTokens := by
    rfl
  refine ⟨⟨hdet, noninvertible_typed_error.1 imgSingular ⟨0, 0, 1⟩ hdet⟩,
    htok, by rfl, matrixOfTokens_singular,
    noninvertible_typed_error.2.2.2 singularText singularTokens htok (by rfl)
      matrixOfTokens_singular⟩

/-! ## Camera-calibration dispatch (C7) -/

/-- A leaf element holding only text. -/
def leaf (name text : String) : Old.Element := .mk name [] [] (some text)

/-- An element holding only children. -/
def node (name : String) (children : List Old.Element) : Old.Element :=
  .mk name [] children none

/-- A well-formed `camcalib_opencv` element whose `version` is `3`. -/
def elem3 : Old.Element :=
  node "camcalib_opencv"
    [leaf "name" "c3", leaf "cameramodel" "integrated", leaf "version" "3",
     node "angle_extents"
       [leaf "tan_max_horz" "1", leaf "tan_max_vert" "1",
        leaf "tan_min_horz" "1", leaf "tan_min_vert" "1"],
     node "internal_opencv"
       [leaf "cx" "1", leaf "cy" "1", leaf "fx" "1", leaf "fy" "1",
        leaf "k1" "1", leaf "k2" "1", leaf "k3" "1", leaf "k4" "1",
        leaf "p1" "1", leaf "p2" "1"],
     node "intrinsic_opencv"
       [leaf "dx" "1", leaf "dy" "1", leaf "nx" "1", leaf "ny" "1"]]

/-- The calibration value `elem3` parses to. -/
def calib3 : Old.CameraCalibration :=
  .OpenCv "c3" "integrated" 3 ⟨1, 1, 1, 1⟩ ⟨1, 1, 1, 1, 1, 1, 1, 1, 1, 1⟩
    ⟨1, 1, 1, 1⟩

/-- C7 counterexample: parsing an `camcalib_opencv` element whose `version`
is `3` succeeds — a calibration value is produced — contradicting the claim
that every model/version combination other than (OpenCV, 2) is rejected at
load time with a typed unsupported error. -/
theorem camera_calibration_version_counterexample :
    elem3.name = "camcalib_opencv" ∧
    Old.CameraCalibration.from_element elem3 = Except.ok calib3 ∧
    calib3.version = 3 ∧ calib3.version ≠ 2 := by
  refine ⟨rfl, ?_, rfl, by decide⟩
  rfl

/-- C7 (amended): at load time only the camera model is checked — an
element that is not `camcalib_opencv` is a typed
`UnsupportedCameraCalibration` error carrying the model name, while an
OpenCV element is parsed whatever its version; a version other than 2 is
rejected only when the calibration is used for projection, with a typed
`UnsupportedOpenCvVersion` error. -/
theorem camera_calibration_dispatch :
    (∀ e : Old.Element, e.name ≠ "camcalib_opencv" →
      Old.CameraCalibration.from_element e =
        Except.error (Old.Error.UnsupportedCameraCalibration e.name)) ∧
    (∀ (img : Old.Image) (p : Pt3 ℝ),
      img.cop.det ≠ 0 → img.sop.det ≠ 0 →
      (img.mount_calibration.matrix * inv4 img.cop * inv4 img.sop).mulVec
          ![p.x, p.y, p.z, 1] 3 = 1 →
      img.camera_calibration.version ≠ 2 →
      img.project p = some (Except.error
        (Old.Error.UnsupportedOpenCvVersion img.camera_calibration.version))) := by
  constructor
  · intro e he
    rw [Old.CameraCalibration.from_element, if_neg he]
  · intro img p hcop hsop hw hver
    cases hcc : img.camera_calibration with
    | OpenCv nm cm ver ae cam intr =>
      rw [hcc] at hver
      simp only [Old.CameraCalibration.version] at hver
      simp only [Old.Image.project, Old.tryInverse, if_neg hcop, if_neg hsop,
        hcc]
      rw [if_pos hw, if_neg hver]
      rfl

/-- A concrete image with identity matrices and the version-3 calibration
`calib3`. -/
noncomputable def img3 : Old.Image :=
  { cop := 1, camera_calibration := calib3, image_data := none,
    mount_calibration := ⟨1, "mount"⟩, name := "img",
    scan_position_name := "sp", sop := 1 }

theorem inv4_one : inv4 (1 : Mat4 ℝ) = 1 :=
  inv4_eq_of_mul_eq_one (by simp)

/-- Witness for C7's amended theorem: a non-OpenCV element is rejected with
a typed error, and projecting through the version-3 image `img3` yields a
typed `UnsupportedOpenCvVersion 3` error. -/
theorem camera_calibration_dispatch_witness :
    ((node "camcalib_unknown" []).name ≠ "camcalib_opencv" ∧
      Old.CameraCalibration.from_element (node "camcalib_unknown" []) =
        Except.error (Old.Error.UnsupportedCameraCalibration
          (node "camcalib_unknown" []).name)) ∧
    (img3.cop.det ≠ 0 ∧ img3.sop.det ≠ 0 ∧
      img3.camera_calibration.version ≠ 2 ∧
      img3.project ⟨0, 0, 1⟩ = some (Except.error
        (Old.Error.UnsupportedOpenCvVersion img3.camera_calibration.version))) := by
  have hname : (node "camcalib_unknown" []).name ≠ "camcalib_opencv" := by
    decide
  have hdet : (1 : Mat4 ℝ).det ≠ 0 := by simp
  have hw : (img3.mount_calibration.matrix * inv4 img3.cop * inv4 img3.sop).mulVec
      ![(0 : ℝ), 0, 1, 1] 3 = 1 := by
    rw [show img3.mount_calibration.matrix = 1 from rfl,
      show img3.cop = 1 from rfl, show img3.sop = 1 from rfl, inv4_one]
    simp [Matrix.one_mulVec]
  have hver : img3.camera_calibration.version ≠ 2 := by
    rw [show img3.camera_calibration = calib3 from rfl]
    decide
  exact ⟨⟨hname, camera_calibration_dispatch.1 _ hname⟩,
    hdet, hdet, hver,
    camera_calibration_dispatch.2 img3 ⟨0, 0, 1⟩ hdet hdet hw hver⟩

/-! ## Dangling calibration references abort the load (C8) -/

/-- The external filesystem oracle for image data: every image file is
absent. -/
def readData0 (_ : String) : Except Old.Error (Option Unit) := Except.ok none

/-- A scan-position image element whose `mountcalib_ref` noderef's final
segment (`NOPE`) names no mount calibration. -/
def imgElem0 : Old.Element :=
  .mk "scanposimage"
    []
    [Old.Element.mk "mountcalib_ref"
       [("noderef", "project/calibrations/mountcalibs/NOPE")] [] none,
     Old.Element.mk "camcalib_ref"
       [("noderef", "project/calibrations/camcalibs/c3")] [] none,
     leaf "file" "img001.csv", leaf "name" "SP01 - Image001",
     node "cop" [leaf "matrix" "1 0 0 0 0 1 0 0 0 0 1 0 0 0 0 1"]]
    none

/-- A scan-position element owning `imgElem0`. -/
def spElem0 : Old.Element :=
  node "scanposition"
    [leaf "name" "SP01",
     node "sop" [leaf "matrix" "1 0 0 0 0 1 0 0 0 0 1 0 0 0 0 1"],
     node "singlescans" [],
     node "scanposimages" [imgElem0]]

/-- A project tree with no calibrations and one scan position whose image
carries the dangling `NOPE` mount-calibration reference. -/
def tree0 : Old.Element :=
  node "project"
    [node "calibrations" [node "mountcalibs" [], node "camcalibs" []],
     node "scanpositions" [spElem0]]

/-- A mount-calibration element named `M01`. -/
def mountElem1 : Old.Element :=
  node "mountcalib"
    [leaf "name" "M01",
     leaf "matrix" "1 0 0 0 0 1 0 0 0 0 1 0 0 0 0 1"]

/-- A scan-position image element whose `mountcalib_ref` resolves (`M01`)
but whose `camcalib_ref` noderef's final segment (`MISSING`) names no
camera calibration. -/
def imgElem1 : Old.Element :=
  .mk "scanposimage"
    []
    [Old.Element.mk "mountcalib_ref"
       [("noderef", "project/calibrations/mountcalibs/M01")] [] none,
     Old.Element.mk "camcalib_ref"
       [("noderef", "project/calibrations/camcalibs/MISSING")] [] none,
     leaf "file" "img001.csv", leaf "name" "SP01 - Image001",
     node "cop" [leaf "matrix" "1 0 0 0 0 1 0 0 0 0 1 0 0 0 0 1"]]
    none

/-- A scan-position element owning `imgElem1`. -/
def spElem1 : Old.Element :=
  node "scanposition"
    [leaf "name" "SP01",
     node "sop" [leaf "matrix" "1 0 0 0 0 1 0 0 0 0 1 0 0 0 0 1"],
     node "singlescans" [],
     node "scanposimages" [imgElem1]]

/-- A project tree with one mount calibration (`M01`), no camera
calibrations, and one scan position whose image carries the dangling
`MISSING` camera-calibration reference. -/
def tree1 : Old.Element :=
  node "project"
    [node "calibrations" [node "mountcalibs" [mountElem1], node "camcalibs" []],
     node "scanpositions" [spElem1]]

/-- C8: if any image of the serialized project carries a mount-calibration
or camera-calibration reference whose final path segment names no entry of
the corresponding built calibration map, the whole load fails — no
`Project` value is ever produced — and (concretely, on `tree0` and
`tree1`) the typed error names the missing calibration. -/
theorem dangling_reference_aborts_load :
    (∀ (readData : String → Except Old.Error (Option Unit))
      (xml : Old.Element) (project_path : String)
      (mounts : List (String × Old.MountCalibration))
      (cams : List (String × Old.CameraCalibration))
      (sps : List Old.Element) (spElem : Old.Element)
      (imgs : List Old.Element) (imgElem : Old.Element) (n : String),
      xml.map_children "calibrations/mountcalibs" Old.mountPair =
        Except.ok mounts →
      xml.map_children "calibrations/camcalibs" Old.camPair =
        Except.ok cams →
      xml.get_children "scanpositions" = Except.ok sps →
      spElem ∈ sps →
      spElem.get_children "scanposimages" = Except.ok imgs →
      imgElem ∈ imgs →
      ((imgElem.get_noderef "mountcalib_ref" = Except.ok n ∧
          mounts.lookup n = none) ∨
        (∃ (m : String) (mc : Old.MountCalibration),
          imgElem.get_noderef "mountcalib_ref" = Except.ok m ∧
          mounts.lookup m = some mc ∧
          imgElem.get_noderef "camcalib_ref" = Except.ok n ∧
          cams.lookup n = none)) →
      ∀ proj, Old.Project.from_element readData xml project_path ≠
        Except.ok proj) ∧
    Old.Project.from_element readData0 tree0 "proj" =
      Except.error (Old.Error.MissingElement "mount_calibration[name=NOPE]") ∧
    Old.Project.from_element readData0 tree1 "proj" =
      Except.error (Old.Error.MissingElement "camera_calibration[name=MISSING]") := by
  refine ⟨?_, rfl, rfl⟩
  intro readData xml project_path mounts cams sps spElem imgs imgElem n
    hm hcam hsps hspmem himgs himgmem hdang proj hok
  rw [Old.Project.from_element, hm] at hok
  simp only [bind, Except.bind] at hok
  rw [hcam] at hok
  simp only [Old.Element.map_children, bind, Except.bind] at hok
  rw [hsps] at hok
  simp only [] at hok
  cases hcol : collectExcept
      (Old.spPair readData project_path mounts cams) sps with
  | error e => rw [hcol] at hok; cases hok
  | ok pairs =>
    obtain ⟨y, hy⟩ :=
      collectExcept_ok_forall _ _ _ hcol spElem hspmem
    rw [Old.spPair] at hy
    simp only [bind, Except.bind] at hy
    cases hsp : Old.ScanPosition.from_element readData spElem project_path
        mounts cams with
    | error e => rw [hsp] at hy; cases hy
    | ok sp =>
      rw [Old.ScanPosition.from_element] at hsp
      simp only [bind, Except.bind] at hsp
      split at hsp
      · cases hsp
      split at hsp
      · cases hsp
      split at hsp
      · cases hsp
      split at hsp
      · cases hsp
      rename_i imgPairs himgPairs
      simp only [Old.Element.map_children, bind, Except.bind] at himgPairs
      rw [himgs] at himgPairs
      simp only [] at himgPairs
      obtain ⟨z, hz⟩ :=
        collectExcept_ok_forall _ _ _ himgPairs imgElem himgmem
      rcases hdang with ⟨hnode, hlookup⟩ | ⟨m, mc, hmnode, hmlook, hcnode, hclook⟩
      · rw [Old.imagePair, hnode] at hz
        simp only [bind, Except.bind] at hz
        rw [hlookup] at hz
        cases hz
      · rw [Old.imagePair, hmnode] at hz
        simp only [bind, Except.bind] at hz
        rw [hmlook] at hz
        simp only [] at hz
        rw [hcnode] at hz
        simp only [] at hz
        rw [hclook] at hz
        cases hz

/-- Witness for C8: the hypotheses of the universal part hold concretely
both for `tree0` (image references the nonexistent mount calibration
`NOPE`) and for `tree1` (mount reference `M01` resolves but the camera
reference `MISSING` dangles); neither load produces a project value. -/
theorem dangling_reference_aborts_load_witness :
    (tree0.map_children "calibrations/mountcalibs" Old.mountPair =
        Except.ok [] ∧
      tree0.get_children "scanpositions" = Except.ok [spElem0] ∧
      spElem0 ∈ [spElem0] ∧
      spElem0.get_children "scanposimages" = Except.ok [imgElem0] ∧
      imgElem0 ∈ [imgElem0] ∧
      imgElem0.get_noderef "mountcalib_ref" = Except.ok "NOPE" ∧
      (List.lookup "NOPE" ([] : List (String × Old.MountCalibration))) = none) ∧
    (imgElem1.get_noderef "mountcalib_ref" = Except.ok "M01" ∧
      imgElem1.get_noderef "camcalib_ref" = Except.ok "MISSING" ∧
      tree1.map_children "calibrations/camcalibs" Old.camPair =
        Except.ok [] ∧
      (List.lookup "MISSING" ([] : List (String × Old.CameraCalibration))) = none) ∧
    (∀ proj, Old.Project.from_element readData0 tree0 "proj" ≠
      Except.ok proj) ∧
    (∀ proj, Old.Project.from_element readData0 tree1 "proj" ≠
      Except.ok proj) := by
  refine ⟨⟨rfl, rfl, List.mem_singleton.mpr rfl, rfl,
    List.mem_singleton.mpr rfl, rfl, rfl⟩, ⟨rfl, rfl, rfl, rfl⟩, ?_, ?_⟩
  · exact dangling_reference_aborts_load.1 readData0 tree0 "proj" [] []
      [spElem0] spElem0 [imgElem0] imgElem0 "NOPE" rfl rfl rfl
      (List.mem_singleton.mpr rfl) rfl (List.mem_singleton.mpr rfl)
      (Or.inl ⟨rfl, rfl⟩)
  · exact dangling_reference_aborts_load.1 readData0 tree1 "proj" _ []
      [spElem1] spElem1 [imgElem1] imgElem1 "MISSING" rfl rfl rfl
      (List.mem_singleton.mpr rfl) rfl (List.mem_singleton.mpr rfl)
      (Or.inr ⟨"M01", _, rfl, rfl, rfl, rfl⟩)

/-! ## Deducing ownership from a file path (C9)

The current-era `Project` type (with its calibration maps and
`scan_position_from_path` / `image_from_path` helpers) is not part of the
source snapshot — only its callers (src/colorizer.rs) and the
scan-position side (src/scan_position.rs) are — so the project-level
deduction is modelled from the spec.  File paths are modelled as their
component lists. -/

/-- The current-era `Error` constructors relevant to path deduction
(src/lib.rs of that era): `ImageFromPath` and `ScanPositionFromPath` both
carry the offending path. -/
inductive Error where
  | ImageFromPath (path : List String)
  | ScanPositionFromPath (path : List String)
  | MissingCameraCalibration (name : String)
  | MissingMountCalibration (name : String)

/-- `scan_position::Image` (src/scan_position.rs): name, COP and the two
symbolic calibration references. -/
structure Image where
  name : String
  cop : Mat4 ℚ
  camera_calibration_name : String
  mount_calibration_name : String

/-- `ScanPosition` (src/scan_position.rs); the `BTreeMap`s are modelled as
association lists keyed by name (`scans` and `is_frozen` are irrelevant to
the claims and omitted). -/
structure ScanPosition where
  name : String
  images : List (String × Image)
  sop : Mat4 ℚ

/-- `ScanPosition::image_from_path` (src/scan_position.rs lines 63–70):
look the path's file stem up in the image map; failure is a typed
`ImageFromPath` error carrying the path. -/
def ScanPosition.image_from_path (sp : ScanPosition) (path : List String) :
    Except Error Image :=
  match path.getLast? with
  | some fileName =>
    match sp.images.lookup (String.mk (fileStem fileName.toList)) with
    | some image => Except.ok image
    | none => Except.error (Error.ImageFromPath path)
  | none => Except.error (Error.ImageFromPath path)

/-- The current-era `Project` registry (calibration maps omitted — only the
scan positions matter for path deduction). -/
structure Project where
  pop : Mat4 ℚ
  scan_positions : List (String × ScanPosition)

/-- Modelled from the spec: step (1) of `Project::scan_position_from_path`
(§4.3), which is not part of the source snapshot — "exact match of the
immediate parent directory name against a scan-position name". -/
def sppStep1 (proj : Project) (path : List String) : Option ScanPosition :=
  path.dropLast.getLast?.bind (fun d => proj.scan_positions.lookup d)

/-- Modelled from the spec: step (2) of `Project::scan_position_from_path`
(§4.3) — "split the file stem on `\x22 - \x22`, match the first segment
against a scan-position name". -/
def sppStep2 (proj : Project) (path : List String) : Option ScanPosition :=
  path.getLast?.bind (fun f =>
    proj.scan_positions.lookup
      (String.mk (takeBefore (' ' :: '-' :: ' ' :: []) (fileStem f.toList))))

/-- Modelled from the spec: step (3) of `Project::scan_position_from_path`
(§4.3) — "search all scan positions for one whose image set contains the
full file stem as an image name". -/
def sppStep3 (proj : Project) (path : List String) : Option ScanPosition :=
  path.getLast?.bind (fun f =>
    (proj.scan_positions.find? (fun p =>
      (p.2.images.lookup (String.mk (fileStem f.toList))).isSome)).map
        (fun p => p.2))

/-- Modelled from the spec: `Project::scan_position_from_path` (§4.3),
which is not part of the source snapshot (src/colorizer.rs is a caller of
the equivalent `image_from_path`): try steps (1), (2), (3) in order, first
match wins; no match is a typed "cannot deduce" error carrying the input
path. -/
def Project.scan_position_from_path (proj : Project) (path : List String) :
    Except Error ScanPosition :=
  match sppStep1 proj path <|> sppStep2 proj path <|> sppStep3 proj path with
  | some sp => Except.ok sp
  | none => Except.error (Error.ScanPositionFromPath path)

/-- The SP01 image used by the C9 example. -/
def imgSP01 : Image := ⟨"SP01 - Image001", 1, "cc", "mc"⟩

/-- The SP01 scan position of the C9 example. -/
def spSP01 : ScanPosition := ⟨"SP01", [("SP01 - Image001", imgSP01)], 1⟩

/-- A two-position example project. -/
def projEx : Project :=
  ⟨1, [("SP01", spSP01), ("SP02", ⟨"SP02", [], 1⟩)]⟩

/-- The example path of C9. -/
def pathEx : List String :=
  ["data", "project.RiSCAN", "SCANS", "SP01", "SCANPOSIMAGES",
   "SP01 - Image001.csv"]

/-- C9: the path-to-scan-position deduction tries, in order, the parent
directory name, the first `" - "` segment of the file stem, and the image
sets; the first match wins and a full miss is a typed error carrying the
path.  On the example path the parent directory (`SCANPOSIMAGES`) does not
match and the stem's first segment resolves to `SP01`, whose image map also
contains the full stem. -/
theorem scan_position_from_path_resolution :
    (∀ (proj : Project) (path : List String) (sp : ScanPosition),
      sppStep1 proj path = some sp →
      proj.scan_position_from_path path = Except.ok sp) ∧
    (∀ (proj : Project) (path : List String) (sp : ScanPosition),
      sppStep1 proj path = none → sppStep2 proj path = some sp →
      proj.scan_position_from_path path = Except.ok sp) ∧
    (∀ (proj : Project) (path : List String) (sp : ScanPosition),
      sppStep1 proj path = none → sppStep2 proj path = none →
      sppStep3 proj path = some sp →
      proj.scan_position_from_path path = Except.ok sp) ∧
    (∀ (proj : Project) (path : List String),
      sppStep1 proj path = none → sppStep2 proj path = none →
      sppStep3 proj path = none →
      proj.scan_position_from_path path =
        Except.error (Error.ScanPositionFromPath path)) ∧
    (projEx.scan_position_from_path pathEx = Except.ok spSP01 ∧
      sppStep1 projEx pathEx = none ∧
      spSP01.image_from_path pathEx = Except.ok imgSP01) := by
  refine ⟨?_, ?_, ?_, ?_, by rfl, by rfl, by rfl⟩
  · intro proj path sp h1
    rw [Project.scan_position_from_path, h1]
    rfl
  · intro proj path sp h1 h2
    rw [Project.scan_position_from_path, h1, h2]
    rfl
  · intro proj path sp h1 h2 h3
    rw [Project.scan_position_from_path, h1, h2, h3]
    rfl
  · intro proj path h1 h2 h3
    rw [Project.scan_position_from_path, h1, h2, h3]
    rfl

/-- Witness for C9 at a one-position project and a path whose parent
directory is exactly the scan-position name (step 1 hits). -/
theorem scan_position_from_path_resolution_witness :
    sppStep1 projEx ["SCANS", "SP01", "x.csv"] = some spSP01 ∧
    projEx.scan_position_from_path ["SCANS", "SP01", "x.csv"] =
      Except.ok spSP01 :=
  ⟨rfl, scan_position_from_path_resolution.1 projEx ["SCANS", "SP01", "x.csv"]
    spSP01 rfl⟩

/-! ## The fixture camera (C2) -/

/-- The fixture calibration of data/camera.cam with the ten constants named
by the spec (`nx`, `ny`, `dx`, `dy` are unused by `Camera::cmcs_to_ics`). -/
noncomputable def camFix : Camera :=
  { fx := 883.5230667826, fy := 884.2400341060,
    cx := 529.9796605360, cy := 400.7770650612,
    k1 := -0.4164950117, k2 := 0.1101340144,
    k3 := -0.1163151292, k4 := 0.0141611216,
    p1 := 0.0007262702, p2 := -0.0001515210,
    nx := 1024, ny := 768, dx := 0.000017, dy := 0.000017 }

/-- The squared angular radius `r²` of the distortion model at normalized
coordinates `(xn, yn)`. -/
noncomputable def rsq (xn yn : ℝ) : ℝ :=
  Real.arctan (Real.sqrt (xn ^ 2 + yn ^ 2)) ^ 2

/-- Evaluation of `Camera::cmcs_to_ics` at a point with normalized
coordinates `xn = x/z`, `yn = y/z`: the distorted pixel is a polynomial in
the squared angular radius `rsq xn yn`. -/
theorem Camera.cmcs_to_ics_eval (c : Camera) (p : Pt3 ℝ) (xn yn : ℝ)
    (hz : p.z ≠ 0) (hfx : c.fx ≠ 0) (hfy : c.fy ≠ 0)
    (hxn : p.x = xn * p.z) (hyn : p.y = yn * p.z) :
    Camera.cmcs_to_ics c p =
      (c.fx * xn + c.cx
        + xn * c.fx * (c.k1 * rsq xn yn + c.k2 * rsq xn yn ^ 2
            + c.k3 * rsq xn yn ^ 3 + c.k4 * rsq xn yn ^ 4)
        + 2 * c.fx * xn * yn * c.p1 + c.p2 * c.fx * (rsq xn yn + 2 * xn ^ 2),
       c.fy * yn + c.cy
        + yn * c.fy * (c.k1 * rsq xn yn + c.k2 * rsq xn yn ^ 2
            + c.k3 * rsq xn yn ^ 3 + c.k4 * rsq xn yn ^ 4)
        + 2 * c.fy * xn * yn * c.p2 + c.p1 * c.fy * (rsq xn yn + 2 * yn ^ 2)) := by
  rw [Camera.cmcs_to_ics]
  have hu : (c.fx * p.x + 0 * p.y + c.cx * p.z) / (0 * p.x + 0 * p.y + 1 * p.z)
      = c.fx * xn + c.cx := by
    rw [hxn, hyn]
    field_simp
    ring
  have hv : (0 * p.x + c.fy * p.y + c.cy * p.z) / (0 * p.x + 0 * p.y + 1 * p.z)
      = c.fy * yn + c.cy := by
    rw [hxn, hyn]
    field_simp
    ring
  simp only [hu, hv]
  have hx2 : (c.fx * xn + c.cx - c.cx) / c.fx = xn := by
    field_simp
  have hy2 : (c.fy * yn + c.cy - c.cy) / c.fy = yn := by
    field_simp
  simp only [hx2, hy2]
  have hr : Real.sqrt (Real.arctan (Real.sqrt (xn ^ 2 + yn ^ 2)) ^ 2) ^ 2
      = rsq xn yn := by
    rw [Real.sq_sqrt (sq_nonneg _), rsq]
  have h4 : ∀ t : ℝ, t ^ 4 = (t ^ 2) ^ 2 := fun t => by ring
  have h6 : ∀ t : ℝ, t ^ 6 = (t ^ 2) ^ 3 := fun t => by ring
  have h8 : ∀ t : ℝ, t ^ 8 = (t ^ 2) ^ 4 := fun t => by ring
  rw [h4, h6, h8, hr]

/-- `√(5/9)`, the norm of the fixture's normalized coordinates `(1/3, 2/3)`. -/
noncomputable def x0 : ℝ := Real.sqrt (5 / 9)

theorem x0_nonneg : 0 ≤ x0 := Real.sqrt_nonneg _

theorem x0_sq : x0 ^ 2 = 5 / 9 := Real.sq_sqrt (by norm_num)

theorem x0_lt_one : x0 < 1 := by
  rw [x0, show (1 : ℝ) = Real.sqrt 1 from Real.sqrt_one.symm]
  exact Real.sqrt_lt_sqrt (by norm_num) (by norm_num)

theorem arctan_x0_nonneg : 0 ≤ Real.arctan x0 := by
  have h := Real.arctan_strictMono.monotone x0_nonneg
  rwa [Real.arctan_zero] at h

/-- The arctangent power series at `x0`. -/
theorem arctan_x0_hasSum :
    HasSum (fun n : ℕ => (-1) ^ n * x0 ^ (2 * n + 1) / (2 * n + 1 : ℕ))
      (Real.arctan x0) :=
  Real.hasSum_arctan
    (by rw [Real.norm_eq_abs, abs_of_nonneg x0_nonneg]; exact x0_lt_one)

set_option maxHeartbeats 2000000 in
/-- Tail bound for the arctangent series at `x0`: the remainder past 33
terms is at most `(5/9)^33 · (9/4) · x0` (geometric comparison). -/
theorem arctan_x0_tail :
    |Real.arctan x0 - ∑ i in Finset.range 33,
        (-1) ^ i * x0 ^ (2 * i + 1) / (2 * i + 1 : ℕ)|
      ≤ (5 / 9) ^ 33 * (9 / 4) * x0 := by
  have hsum := arctan_x0_hasSum
  have hs : Summable (fun n : ℕ => (-1) ^ n * x0 ^ (2 * n + 1) / (2 * n + 1 : ℕ)) :=
    hsum.summable
  have hsplit := sum_add_tsum_nat_add (f := fun n : ℕ =>
    (-1) ^ n * x0 ^ (2 * n + 1) / (2 * n + 1 : ℕ)) 33 hs
  have htail : Real.arctan x0 - ∑ i in Finset.range 33,
      (-1) ^ i * x0 ^ (2 * i + 1) / (2 * i + 1 : ℕ)
      = tsum (fun i : ℕ => (-1) ^ (i + 33) * x0 ^ (2 * (i + 33) + 1) / (2 * (i + 33) + 1 : ℕ)) := by
    rw [← hsum.tsum_eq, ← hsplit]
    ring
  rw [htail]
  have hgs : Summable (fun i : ℕ => (5 / 9 : ℝ) ^ i) :=
    summable_geometric_of_lt_one (by norm_num) (by norm_num)
  have hgs2 : Summable (fun i : ℕ => x0 ^ 67 * (5 / 9 : ℝ) ^ i) := hgs.mul_left _
  have hterm : ∀ i : ℕ,
      |(-1) ^ (i + 33) * x0 ^ (2 * (i + 33) + 1) / (2 * (i + 33) + 1 : ℕ)|
        ≤ x0 ^ 67 * (5 / 9 : ℝ) ^ i := by
    intro i
    have hx0pow : ∀ n : ℕ, 0 ≤ x0 ^ n := fun n => pow_nonneg x0_nonneg n
    have habs : |(-1 : ℝ) ^ (i + 33) * x0 ^ (2 * (i + 33) + 1) / (2 * (i + 33) + 1 : ℕ)|
        = x0 ^ (2 * (i + 33) + 1) / (2 * (i + 33) + 1 : ℕ) := by
      rw [abs_div, abs_mul, abs_pow, abs_neg, abs_one, one_pow, one_mul,
        abs_of_nonneg (hx0pow _), abs_of_nonneg (by positivity)]
    rw [habs]
    have h1 : x0 ^ (2 * (i + 33) + 1) / (2 * (i + 33) + 1 : ℕ)
        ≤ x0 ^ (2 * (i + 33) + 1) := by
      apply div_le_self (hx0pow _)
      have : (1 : ℝ) ≤ (2 * (i + 33) + 1 : ℕ) := by
        exact_mod_cast Nat.one_le_iff_ne_zero.mpr (by omega)
      exact this
    refine h1.trans (le_of_eq ?_)
    have : x0 ^ (2 * (i + 33) + 1) = x0 ^ 67 * (x0 ^ 2) ^ i := by
      rw [← pow_mul]
      rw [← pow_add]
      congr 1
      omega
    rw [this, x0_sq]
  have hsum_norm : Summable (fun i : ℕ =>
      |(-1) ^ (i + 33) * x0 ^ (2 * (i + 33) + 1) / (2 * (i + 33) + 1 : ℕ)|) := by
    apply Summable.of_nonneg_of_le (fun i => abs_nonneg _) hterm hgs2
  have hsum_norm2 : Summable (fun i : ℕ =>
      ‖(-1) ^ (i + 33) * x0 ^ (2 * (i + 33) + 1) / ((2 * (i + 33) + 1 : ℕ) : ℝ)‖) := by
    simpa only [Real.norm_eq_abs] using hsum_norm
  have step1 := norm_tsum_le_tsum_norm hsum_norm2
  simp only [Real.norm_eq_abs] at step1
  calc |tsum (fun i : ℕ => (-1) ^ (i + 33) * x0 ^ (2 * (i + 33) + 1) / (2 * (i + 33) + 1 : ℕ))|
      ≤ tsum (fun i : ℕ => |(-1) ^ (i + 33) * x0 ^ (2 * (i + 33) + 1) / (2 * (i + 33) + 1 : ℕ)|) := step1
    _ ≤ tsum (fun i : ℕ => x0 ^ 67 * (5 / 9 : ℝ) ^ i) := tsum_le_tsum hterm hsum_norm hgs2
    _ = x0 ^ 67 * (1 - 5 / 9)⁻¹ := by
        rw [tsum_mul_left, tsum_geometric_of_lt_one (by norm_num) (by norm_num)]
    _ = (5 / 9) ^ 33 * (9 / 4) * x0 := by
        have : x0 ^ 67 = (x0 ^ 2) ^ 33 * x0 := by ring
        rw [this, x0_sq, show ((1 : ℝ) - 5 / 9)⁻¹ = 9 / 4 from by norm_num]
        ring

/-- The partial arctangent sum factors as a rational times `x0`. -/
theorem arctan_x0_partial_sum :
    (∑ i in Finset.range 33, (-1) ^ i * x0 ^ (2 * i + 1) / (2 * i + 1 : ℕ))
      = (∑ i in Finset.range 33, (-5 / 9 : ℝ) ^ i / (2 * i + 1 : ℕ)) * x0 := by
  rw [Finset.sum_mul]
  refine Finset.sum_congr rfl (fun i _ => ?_)
  have hp : x0 ^ (2 * i + 1) = (5 / 9 : ℝ) ^ i * x0 := by
    have : x0 ^ (2 * i + 1) = (x0 ^ 2) ^ i * x0 := by
      rw [← pow_mul, ← pow_succ]
    rw [this, x0_sq]
  rw [hp]
  have hneg : (-5 / 9 : ℝ) ^ i = (-1) ^ i * (5 / 9 : ℝ) ^ i := by
    rw [show (-5 / 9 : ℝ) = -(5 / 9) from by norm_num, neg_pow]
  rw [hneg]
  ring

set_option maxHeartbeats 2000000 in
/-- The 33-term partial sum of the rational series, evaluated exactly. -/
theorem Q_eval :
    (∑ i in Finset.range 33, (-5 / 9 : ℝ) ^ i / (2 * i + 1 : ℕ))
      = 26917910270274457502629348128344342314164218277838841 /
        31323539129718393982153424675645833991376319312347801 := by
  norm_num [Finset.sum_range_succ]

set_option maxHeartbeats 2000000 in
/-- Rational bracketing of the squared angular radius of the fixture:
`arctan(√(5/9))² ∈ [0.41026882, 0.41026885]`. -/
theorem s_bounds :
    (0.41026882 : ℝ) ≤ Real.arctan x0 ^ 2 ∧
      Real.arctan x0 ^ 2 ≤ 0.41026885 := by
  have htail := arctan_x0_tail
  rw [arctan_x0_partial_sum, Q_eval] at htail
  obtain ⟨hlo, hhi⟩ := abs_le.mp htail
  have hxnn := x0_nonneg
  have hQd_lo : (0.8593508509 : ℝ) ≤
      26917910270274457502629348128344342314164218277838841 /
        31323539129718393982153424675645833991376319312347801
      - (5 / 9 : ℝ) ^ 33 * (9 / 4) := by norm_num
  have hQd_hi : (26917910270274457502629348128344342314164218277838841 /
        31323539129718393982153424675645833991376319312347801 : ℝ)
      + (5 / 9) ^ 33 * (9 / 4) ≤ 0.8593508679 := by norm_num
  have harc_lo : (0.8593508509 : ℝ) * x0 ≤ Real.arctan x0 := by nlinarith
  have harc_hi : Real.arctan x0 ≤ (0.8593508679 : ℝ) * x0 := by nlinarith
  have harc_nonneg := arctan_x0_nonneg
  have hlow_nonneg : (0 : ℝ) ≤ 0.8593508509 * x0 := by positivity
  constructor
  · have hsq : ((0.8593508509 : ℝ) * x0) ^ 2 ≤ Real.arctan x0 ^ 2 :=
      pow_le_pow_left hlow_nonneg harc_lo 2
    calc (0.41026882 : ℝ) ≤ 0.8593508509 ^ 2 * (5 / 9) := by norm_num
      _ = ((0.8593508509 : ℝ) * x0) ^ 2 := by rw [mul_pow, x0_sq]
      _ ≤ Real.arctan x0 ^ 2 := hsq
  · have hsq : Real.arctan x0 ^ 2 ≤ ((0.8593508679 : ℝ) * x0) ^ 2 :=
      pow_le_pow_left harc_nonneg harc_hi 2
    calc Real.arctan x0 ^ 2 ≤ ((0.8593508679 : ℝ) * x0) ^ 2 := hsq
      _ = 0.8593508679 ^ 2 * (5 / 9) := by rw [mul_pow, x0_sq]
      _ ≤ 0.41026885 := by norm_num

set_option maxHeartbeats 2000000 in
/-- C2: the fixture calibration applied to the camera-frame point
`(1, 2, 3)` produces pixel coordinates within 1e-4 of `(777.5760,
896.7450)`. -/
theorem fixture_distortion :
    |(Camera.cmcs_to_ics camFix ⟨1, 2, 3⟩).1 - 777.5760| ≤ 1 / 10000 ∧
    |(Camera.cmcs_to_ics camFix ⟨1, 2, 3⟩).2 - 896.7450| ≤ 1 / 10000 := by
  have heval := Camera.cmcs_to_ics_eval camFix ⟨1, 2, 3⟩ (1 / 3) (2 / 3)
    (by norm_num) (by norm_num [camFix]) (by norm_num [camFix])
    (by norm_num) (by norm_num)
  have hrs : rsq (1 / 3) (2 / 3) = Real.arctan x0 ^ 2 := by
    rw [rsq, show ((1 : ℝ) / 3) ^ 2 + ((2 : ℝ) / 3) ^ 2 = 5 / 9 from by norm_num,
      x0]
  rw [hrs] at heval
  rw [heval]
  obtain ⟨hA, hB⟩ := s_bounds
  have h0 : (0 : ℝ) ≤ Real.arctan x0 ^ 2 := sq_nonneg _
  have h2L : (0.1683205046 : ℝ) ≤ (Real.arctan x0 ^ 2) ^ 2 :=
    le_trans (by norm_num) (pow_le_pow_left (by norm_num) hA 2)
  have h2U : (Real.arctan x0 ^ 2) ^ 2 ≤ 0.1683205293 :=
    le_trans (pow_le_pow_left h0 hB 2) (by norm_num)
  have h3L : (0.0690566548 : ℝ) ≤ (Real.arctan x0 ^ 2) ^ 3 :=
    le_trans (by norm_num) (pow_le_pow_left (by norm_num) hA 3)
  have h3U : (Real.arctan x0 ^ 2) ^ 3 ≤ 0.0690566700 :=
    le_trans (pow_le_pow_left h0 hB 3) (by norm_num)
  have h4L : (0.0283317922 : ℝ) ≤ (Real.arctan x0 ^ 2) ^ 4 :=
    le_trans (by norm_num) (pow_le_pow_left (by norm_num) hA 4)
  have h4U : (Real.arctan x0 ^ 2) ^ 4 ≤ 0.0283318006 :=
    le_trans (pow_le_pow_left h0 hB 4) (by norm_num)
  constructor <;> rw [abs_le] <;> constructor <;>
    simp only [camFix] <;>
    nlinarith [hA, hB, h2L, h2U, h3L, h3U, h4L, h4U]

end RiscanPro
